import Mathlib

/-!
Verification of the agentic calendar orchestrator (`src/main.py`,
`src/utils.py`, `src/agents/calendar_agent.py`, `src/agent_manager.py`).

The Python code is shallowly embedded: each Python function that a claim
depends on becomes an executable Lean definition named after its source
function.  Machine-level effects that no claim observes (HTTP headers,
logging, sleeping between retries, Sentry) are not modelled; points where
the embedding fixes a domain (e.g. timestamps are ASCII, tool-call argument
strings are valid JSON, so they are represented by their parsed form) are
noted next to the definition they concern.
-/

namespace AgentApp

/-! ## Python string primitives used by the source -/

/-- Python `str.lower()` (ASCII case folding, which is all the source feeds it). -/
def pyLower (s : String) : String := ⟨s.data.map Char.toLower⟩

/-- Python `str.strip()`: drop leading and trailing whitespace. -/
def pyStrip (s : String) : String :=
  ⟨((s.data.dropWhile Char.isWhitespace).reverse.dropWhile Char.isWhitespace).reverse⟩

/-- Truthiness of a possibly-absent Python string (`None` and `""` are falsy). -/
def truthyO : Option String → Bool
  | some s => s != ""
  | none => false

/-- Python `a or b` on two possibly-absent strings. -/
def orStr (a b : Option String) : Option String := if truthyO a then a else b

/-- Whether `needle` occurs at the head of `hay`. -/
def subAt : List Char → List Char → Bool
  | [], _ => true
  | _ :: _, [] => false
  | a :: as, b :: bs => a == b && subAt as bs

/-- Helper for the Python `in` substring test, recursing over the haystack. -/
def containsSubAux (needle : List Char) (hay : List Char) : Bool :=
  match hay with
  | [] => needle.isEmpty
  | _ :: rest => subAt needle hay || containsSubAux needle rest

/-- Python `needle in hay` for strings. -/
def containsSub (needle hay : String) : Bool := containsSubAux needle.data hay.data

/-- Python `", ".join(parts)`. -/
def joinComma : List String → String
  | [] => ""
  | [s] => s
  | s :: rest => s ++ ", " ++ joinComma rest

/-- One hex digit, uppercase, as produced by `urllib.parse.quote`. -/
def hexDigit (n : Nat) : Char := if n < 10 then Char.ofNat (48 + n) else Char.ofNat (55 + n)

/-- Percent-encoding of one character per `urllib.parse.quote` (default
`safe="/"`, so unreserved characters and `/` pass through).  The source only
quotes ISO timestamps, which are ASCII, so single-byte encoding is faithful. -/
def pctChar (c : Char) : List Char :=
  if c.isAlphanum || c == '_' || c == '.' || c == '-' || c == '~' || c == '/' then [c]
  else ['%', hexDigit (c.toNat / 16 % 16), hexDigit (c.toNat % 16)]

/-- Python `urllib.parse.quote(s)` restricted to ASCII input. -/
def pctQuote (s : String) : String := ⟨s.data.foldr (fun c acc => pctChar c ++ acc) []⟩

/-- JSON string escaping for one character (`json.dumps`); control characters
other than the escapes below do not occur in the modelled strings. -/
def jescChar (c : Char) : List Char :=
  if c == '"' then ['\\', '"']
  else if c == '\\' then ['\\', '\\']
  else if c == '\n' then ['\\', 'n']
  else if c == '\t' then ['\\', 't']
  else if c == '\r' then ['\\', 'r']
  else [c]

/-- `json.dumps` of a string value. -/
def jstr (s : String) : String :=
  "\"" ++ (⟨s.data.foldr (fun c acc => jescChar c ++ acc) []⟩ : String) ++ "\""

/-- Wrap rendered members in JSON object braces. -/
def jobj (inner : String) : String := "\x7b" ++ inner ++ "\x7d"

/-! ## Temporal resolver (`CalendarServiceClient` time helpers, main.py 112-137)

`_get_local_offset` formats the *server's* local UTC offset as `+HH:MM`; the
embedding passes that string in as the `serverOffset` parameter. -/

/-- Drop one trailing newline, mirroring how `$` in a Python regex also
matches just before a final newline. -/
def dropFinalNewline : List Char → List Char
  | '\n' :: t => t
  | t => t

/-- The `Z$` alternative of the suffix regex, on the reversed characters. -/
def zPat : List Char → Bool
  | 'Z' :: _ => true
  | _ => false

/-- The `[+-]\d{2}:\d{2}$` shape of the suffix regex (reversed characters). -/
def colonPat : List Char → Bool
  | d1 :: d2 :: ':' :: d3 :: d4 :: sign :: _ =>
    d1.isDigit && d2.isDigit && d3.isDigit && d4.isDigit && (sign == '+' || sign == '-')
  | _ => false

/-- The `[+-]\d{4}$` shape of the suffix regex (reversed characters). -/
def plainPat : List Char → Bool
  | d1 :: d2 :: d3 :: d4 :: sign :: _ =>
    d1.isDigit && d2.isDigit && d3.isDigit && d4.isDigit && (sign == '+' || sign == '-')
  | _ => false

/-- Core of the `re.search(r"Z$|[+-]\d{2}:?\d{2}$", s)` test, on the reversed
character list of `s`: the regex alternation as a disjunction. -/
def tzSuffixCore (l : List Char) : Bool := zPat l || colonPat l || plainPat l

/-- Whether the string already ends in `Z` or a `[+-]HH(:)MM` offset
(main.py line 125 and line 144). -/
def hasTzSuffix (s : String) : Bool := tzSuffixCore (dropFinalNewline s.data.reverse)

/-- `CalendarServiceClient.ensure_timezone_offset` (main.py 124-127):
annotate a timestamp that lacks an offset with the server local offset. -/
def ensure_timezone_offset (serverOffset : String) (iso : String) : String :=
  if iso == "" || hasTzSuffix iso then iso else iso ++ serverOffset

/-- Python `str.replace("Z", "+00:00")` (the pattern is a single character,
so character-wise replacement is exact). -/
def replaceZ (s : String) : String :=
  ⟨s.data.foldr (fun c acc => if c == 'Z' then '+' :: '0' :: '0' :: ':' :: '0' :: '0' :: acc
                 else c :: acc) []⟩

/-- A timezone offset: negative flag, hours, minutes. -/
structure TzOff where
  neg : Bool
  oh : Nat
  om : Nat
deriving Repr, DecidableEq

/-- The value of a parsed `datetime.datetime` at the precision the source
uses (no microseconds occur in the modelled inputs). -/
structure PyDateTime where
  year : Nat
  month : Nat
  day : Nat
  hour : Nat
  minute : Nat
  second : Nat
  off : Option TzOff
deriving Repr, DecidableEq

/-- Gregorian leap year. -/
def isLeap (y : Nat) : Bool := y % 4 == 0 && (y % 100 != 0 || y % 400 == 0)

/-- Days in a month. -/
def daysInMonth (y m : Nat) : Nat :=
  if m == 2 then (if isLeap y then 29 else 28)
  else if m == 4 || m == 6 || m == 9 || m == 11 then 30
  else 31

/-- Two decimal digits to a number. -/
def parse2dig (a b : Char) : Option Nat :=
  if a.isDigit && b.isDigit then some ((a.toNat - 48) * 10 + (b.toNat - 48)) else none

/-- Four decimal digits to a number. -/
def parse4dig (a b c d : Char) : Option Nat :=
  if a.isDigit && b.isDigit && c.isDigit && d.isDigit then
    some ((a.toNat - 48) * 1000 + (b.toNat - 48) * 100 + (c.toNat - 48) * 10 + (d.toNat - 48))
  else none

/-- Parse the optional trailing UTC offset (`±HH:MM` or `±HHMM`), then
validate it the way `datetime.timezone` does (strictly less than 24 hours;
a zero offset loses its sign). -/
def parseOff : List Char → Option (Option TzOff)
  | [] => some none
  | [sign, a, b, ':', c, d] =>
    if sign == '+' || sign == '-' then
      match parse2dig a b, parse2dig c d with
      | some h, some m =>
        if h ≤ 23 && m ≤ 59 then
          some (some ⟨sign == '-' && !(h == 0 && m == 0), h, m⟩)
        else none
      | _, _ => none
    else none
  | [sign, a, b, c, d] =>
    if sign == '+' || sign == '-' then
      match parse2dig a b, parse2dig c d with
      | some h, some m =>
        if h ≤ 23 && m ≤ 59 then
          some (some ⟨sign == '-' && !(h == 0 && m == 0), h, m⟩)
        else none
      | _, _ => none
    else none
  | _ => none

/-- Parse the part after `HH:MM`: optional `:SS`, then the offset. -/
def parseSecOff : List Char → Option (Nat × Option TzOff)
  | ':' :: s1 :: s2 :: rest =>
    match parse2dig s1 s2, parseOff rest with
    | some s, some o => if s ≤ 59 then some (s, o) else none
    | _, _ => none
  | rest => (parseOff rest).map (fun o => (0, o))

/-- `datetime.datetime.fromisoformat` on the grammar the source can produce:
`YYYY-MM-DD<sep>HH:MM[:SS][±HH:MM|±HHMM]` (any single separator character,
as CPython accepts).  Fractional seconds and offsets with seconds are outside
the modelled domain and count as parse failures. -/
def parseIso (s : String) : Option PyDateTime :=
  match s.data with
  | y1 :: y2 :: y3 :: y4 :: '-' :: m1 :: m2 :: '-' :: d1 :: d2 :: _sep :: h1 :: h2 :: ':' :: n1 :: n2 :: rest =>
    match parse4dig y1 y2 y3 y4, parse2dig m1 m2, parse2dig d1 d2,
          parse2dig h1 h2, parse2dig n1 n2, parseSecOff rest with
    | some y, some mo, some d, some h, some mi, some (sec, off) =>
      if 1 ≤ y && 1 ≤ mo && mo ≤ 12 && 1 ≤ d && d ≤ daysInMonth y mo
          && h ≤ 23 && mi ≤ 59 then
        some ⟨y, mo, d, h, mi, sec, off⟩
      else none
    | _, _, _, _, _, _ => none
  | _ => none

/-- Advance a calendar date by one day. -/
def nextDay : Nat × Nat × Nat → Nat × Nat × Nat
  | (y, m, d) =>
    if d < daysInMonth y m then (y, m, d + 1)
    else if m < 12 then (y, m + 1, 1)
    else (y + 1, 1, 1)

/-- Advance a calendar date by `n` days. -/
def addDays : Nat → Nat × Nat × Nat → Nat × Nat × Nat
  | 0, ymd => ymd
  | n + 1, ymd => addDays n (nextDay ymd)

/-- `dt + timedelta(minutes=k)`: wall-clock arithmetic, the offset rides along
unchanged (exactly as Python adds a `timedelta` to an aware `datetime`). -/
def addMinutes (dt : PyDateTime) (k : Nat) : PyDateTime :=
  let tot := dt.hour * 60 + dt.minute + k
  let (y, m, d) := addDays (tot / 1440) (dt.year, dt.month, dt.day)
  { dt with year := y, month := m, day := d, hour := tot % 1440 / 60, minute := tot % 60 }

/-- A decimal digit character; the catch-all arm is only reached for `9`
because every call site passes a value at most `9`. -/
def digCh : Nat → Char
  | 0 => '0' | 1 => '1' | 2 => '2' | 3 => '3' | 4 => '4'
  | 5 => '5' | 6 => '6' | 7 => '7' | 8 => '8' | _ => '9'

/-- Zero-pad to two digits (all values the model formats are below 100, and
there this agrees with Python's `%02d`). -/
def pad2 (n : Nat) : String :=
  if n < 100 then ⟨[digCh (n / 10), digCh (n % 10)]⟩ else toString n

/-- Zero-pad to four digits. -/
def pad4 (n : Nat) : String :=
  if n < 10 then "000" ++ toString n
  else if n < 100 then "00" ++ toString n
  else if n < 1000 then "0" ++ toString n
  else toString n

/-- Render an offset the way `datetime.isoformat` does. -/
def renderOff : Option TzOff → String
  | none => ""
  | some o => (if o.neg then "-" else "+") ++ pad2 o.oh ++ ":" ++ pad2 o.om

/-- `datetime.isoformat()` at second precision (microseconds are zero in the
modelled domain, so Python omits them). -/
def isoformat (dt : PyDateTime) : String :=
  pad4 dt.year ++ "-" ++ pad2 dt.month ++ "-" ++ pad2 dt.day ++ "T" ++
    pad2 dt.hour ++ ":" ++ pad2 dt.minute ++ ":" ++ pad2 dt.second ++ renderOff dt.off

/-- `CalendarServiceClient.calculate_end_time` (main.py 129-137).  A `None`
start makes `ensure_timezone_offset` return `None`, whose `.replace` raises
and is caught, so the result is `None`; likewise any parse failure. -/
def calculate_end_time (serverOffset : String) (startIso : Option String)
    (durationMin : Nat) : Option String :=
  match startIso with
  | none => none
  | some s =>
    let safe := replaceZ (ensure_timezone_offset serverOffset s)
    match parseIso safe with
    | none => none
    | some dt => some (isoformat (addMinutes dt durationMin))

/-! ## Data model

Tool-call argument strings are JSON at the boundary; the loop only ever runs
`json.loads` on strings the OpenAI client produced, which are valid JSON, so
the embedding represents arguments directly by their parsed key/value form,
restricted to the keys the source ever reads or writes. -/

/-- The `_system_context` block injected by `execute_tool_call`
(agent_manager.py 46-56). -/
structure SysContext where
  current_time : String
  day_of_week : String
  timezone_offset : String
deriving Repr, DecidableEq

/-- Parsed tool-call arguments: exactly the keys the source touches. -/
structure Args where
  title : Option String := none
  summary : Option String := none
  startTime : Option String := none
  endTime : Option String := none
  event_id : Option String := none
  tenant_id : Option String := none
  duration_minutes : Option Nat := none
  duration : Option Nat := none
  confirmed : Option Bool := none
  sysContext : Option SysContext := none
deriving Repr, DecidableEq

/-- One proposed action (`tool_call.function.name` / parsed `arguments`),
with its correlation `id`. -/
structure ToolCall where
  id : String
  fname : String
  args : Args
deriving Repr, DecidableEq

/-- One conversation turn (`ChatMessage` / the message dicts in the loop).
An absent or `None` `tool_calls` value and an empty list are both falsy in
the source, so both are represented by `[]`. -/
structure Msg where
  role : String
  content : Option String := none
  tool_calls : List ToolCall := []
  tool_call_id : Option String := none
  name : Option String := none
deriving Repr, DecidableEq

/-- What one model consultation returns (`response.choices[0].message`). -/
structure AssistantTurn where
  content : Option String := none
  toolCalls : List ToolCall := []
deriving Repr, DecidableEq

/-- The backend JSON body, restricted to the keys the source reads
(`hasConflict`, `status`, `jwtToken`). -/
structure JsonBody where
  hasConflict : Option Bool := none
  status : Option String := none
  jwtToken : Option String := none
deriving Repr, DecidableEq

/-- One transport-level HTTP response. -/
structure HttpResp where
  status_code : Nat
  text : String
  body : JsonBody
deriving Repr, DecidableEq

/-- What `CalendarServiceClient.request` returns (main.py 139-157). -/
inductive RequestResult where
  | reauth (authUrl : String)
  | body (b : JsonBody)
  | systemOffline
deriving Repr, DecidableEq

/-- One backend call as issued by `CalendarServiceClient.request`
(method, path, normalized JSON payload). -/
structure BackendCall where
  method : String
  path : String
  payload : Option Args
deriving Repr, DecidableEq

/-- A handler result dict (`handle_calendar` / `execute_tool_call`). -/
inductive HResult where
  | errorMsg (msg : String)
  | errorStatus (msg : String) (status : Nat)
  | backend (r : RequestResult)
  | initReady (b : JsonBody) (message : String)
deriving Repr, DecidableEq

/-- The request's environment: configuration plus the oracles for the
outside world (server clock/offset, transport outcomes, the language model,
and the two `re.search` title extractions, which are free-text heuristics
whose matching behaviour no claim depends on). -/
structure Env where
  baseUrl : String
  serverOffset : String
  sysPrompt : String
  sysCtx : SysContext
  nowStr : Nat → String
  doReq : String → String → Option Args → Except Unit HttpResp
  model : List Msg → AssistantTurn
  titleRegex1 : String → Option String
  titleRegex2 : String → Option String

/-! ## `retry_with_backoff` (utils.py 48-67)

The wrapper calls the function, and on an exception retries until the retry
counter `x` reaches `retries`, then re-raises; sleeping between attempts is
not observable.  The transport is an attempt-indexed oracle; the second
component counts the attempts actually made.  The `fuel` argument equals
`retries - x` and only discharges termination: the `x = retries` test always
fires before fuel runs out. -/

def retryGo (retries : Nat) (f : Nat → Except Unit HttpResp) :
    Nat → Nat → Except Unit HttpResp × Nat
  | x, fuel =>
    match f x with
    | Except.ok r => (Except.ok r, x + 1)
    | Except.error e =>
      if x == retries then (Except.error e, x + 1)
      else
        match fuel with
        | 0 => (Except.error e, x + 1)
        | fuel + 1 => retryGo retries f (x + 1) fuel

/-- `retry_with_backoff(retries)` applied to an awaited call: final outcome
plus the number of transport attempts made. -/
def retry_with_backoff (retries : Nat) (f : Nat → Except Unit HttpResp) :
    Except Unit HttpResp × Nat :=
  retryGo retries f 0 retries

/-- Interpretation of a transport response by `CalendarServiceClient.request`
(main.py 148-154): a 400/401 whose text mentions a token becomes a
re-authentication result, everything else is returned as its JSON body. -/
def interpretResp (baseUrl tenantId : String) (r : HttpResp) : RequestResult :=
  if (r.status_code == 400 || r.status_code == 401) && containsSub "token" (pyLower r.text) then
    RequestResult.reauth (baseUrl ++ "/auth/google?tenant_id=" ++ tenantId)
  else RequestResult.body r.body

/-- `CalendarServiceClient.request` for one call with the retry layer kept
explicit (main.py 118-157): exhausted retries surface as the caught
exception, i.e. the structured `system_offline` dict. -/
def requestWithRetry (baseUrl tenantId : String) (retries : Nat)
    (f : Nat → Except Unit HttpResp) : RequestResult × Nat :=
  match retry_with_backoff retries f with
  | (Except.ok r, n) => (interpretResp baseUrl tenantId r, n)
  | (Except.error _, n) => (RequestResult.systemOffline, n)

/-! ## `CalendarServiceClient.request` at call granularity

For the loop-level definitions the per-attempt detail is irrelevant, so the
transport oracle `Env.doReq` gives the net outcome of `_do_request` after its
retries (`Except.error` = retries exhausted, exception caught at line 155). -/

/-- The `startTime` half of the payload normalization `request` applies
(main.py 142-145, iteration `field = "startTime"`). -/
def normStart (serverOffset : String) (a : Args) : Args :=
  match a.startTime with
  | some v => if v != "" && !hasTzSuffix v then { a with startTime := some (v ++ serverOffset) } else a
  | none => a

/-- The `endTime` half of the payload normalization `request` applies
(main.py 142-145, iteration `field = "endTime"`). -/
def normEnd (serverOffset : String) (a : Args) : Args :=
  match a.endTime with
  | some v => if v != "" && !hasTzSuffix v then { a with endTime := some (v ++ serverOffset) } else a
  | none => a

/-- The startTime/endTime normalization `request` applies to its JSON payload
(main.py 141-145). -/
def normalizeTimes (serverOffset : String) : Option Args → Option Args
  | none => none
  | some a => some (normEnd serverOffset (normStart serverOffset a))

/-- `CalendarServiceClient.request` (main.py 139-157): normalize the payload,
issue the transport call, interpret the response; also reports the backend
call it issued. -/
def pyRequest (env : Env) (tenantId : String) (method path : String)
    (jsonData : Option Args) : RequestResult × BackendCall :=
  match env.doReq method path (normalizeTimes env.serverOffset jsonData) with
  | Except.error _ =>
    (RequestResult.systemOffline, ⟨method, path, normalizeTimes env.serverOffset jsonData⟩)
  | Except.ok r =>
    (interpretResp env.baseUrl tenantId r, ⟨method, path, normalizeTimes env.serverOffset jsonData⟩)

/-- `CalendarServiceClient.check_conflicts` (main.py 159-184): annotate and
percent-encode the timestamps, query the backend, answer `true` only for a
dict whose `hasConflict` is `True`; every other outcome (including the
`system_offline` dict produced when transport fails) is `false`. -/
def check_conflicts (env : Env) (tenantId : String) (startIso endIso : String) :
    Bool × BackendCall :=
  let s := ensure_timezone_offset env.serverOffset startIso
  let e := ensure_timezone_offset env.serverOffset endIso
  let path := "/events/check-conflicts?startTime=" ++ pctQuote s ++ "&endTime=" ++ pctQuote e
  let rc := pyRequest env tenantId "GET" path none
  match rc.1 with
  | RequestResult.body b => (b.hasConflict == some true, rc.2)
  | _ => (false, rc.2)

/-! ## History sanitizer (`sanitize_history`, utils.py 7-46) -/

/-- The elision marker appended to truncated content. -/
def truncMarker (n : Nat) : String := " ... [Truncated: " ++ toString n ++ " chars]"

/-- Sanitization of one message: truncate over-long text content unless the
message is among the most recent `keep_last_n` (utils.py 32-44).  The
dict/tool-call conversions of steps 1-2 are identity on already-plain data. -/
def sanitizeMsg (maxLen : Nat) (isRecent : Bool) (m : Msg) : Msg :=
  match m.content with
  | some c =>
    if !isRecent && c.length > maxLen then
      { m with content := some ((⟨c.data.take maxLen⟩ : String) ++ truncMarker (c.length - maxLen)) }
    else m
  | none => m

/-- The enumeration loop of `sanitize_history`; `recentFrom` is
`total_msgs - keep_last_n` and `i` the running index. -/
def sanitizeFrom (maxLen recentFrom : Nat) : Nat → List Msg → List Msg
  | _, [] => []
  | i, m :: rest => sanitizeMsg maxLen (recentFrom ≤ i) m :: sanitizeFrom maxLen recentFrom (i + 1) rest

/-- `sanitize_history(history, max_content_length, keep_last_n)`.  Python's
`i >= total - keep` on ints agrees with the truncated Nat subtraction here:
when `keep > total` both make every index recent. -/
def sanitize_history (history : List Msg) (maxLen : Nat := 2000) (keepLastN : Nat := 3) :
    List Msg :=
  sanitizeFrom maxLen (history.length - keepLastN) 0 history

/-! ## History repair (main.py 207-210) -/

/-- A trailing assistant turn still carrying proposed actions. -/
def isDangling (m : Msg) : Bool := m.role == "assistant" && !m.tool_calls.isEmpty

/-- The `while ... pop()` loop: drop the maximal trailing run of assistant
turns that still carry tool calls. -/
def repairHistory (h : List Msg) : List Msg :=
  ((h.reverse.dropWhile isDangling).reverse)

/-! ## Rendering results back into tool-turn content (`json.dumps`) -/

/-- The members of a backend JSON body, in the field order of the model. -/
def bodyFields (b : JsonBody) : List String :=
  (match b.hasConflict with
   | some v => ["\"hasConflict\": " ++ (if v then "true" else "false")]
   | none => []) ++
  (match b.status with
   | some s => ["\"status\": " ++ jstr s]
   | none => []) ++
  (match b.jwtToken with
   | some t => ["\"jwtToken\": " ++ jstr t]
   | none => [])

/-- `json.dumps` of a backend body. -/
def renderBody (b : JsonBody) : String := jobj (joinComma (bodyFields b))

/-- `json.dumps` of a `CalendarServiceClient.request` result. -/
def renderRequestResult : RequestResult → String
  | RequestResult.reauth url =>
    jobj ("\"status\": \"ready_to_reauth\", \"auth_required\": true, \"auth_url\": " ++ jstr url)
  | RequestResult.systemOffline => jobj "\"error\": \"system_offline\""
  | RequestResult.body b => renderBody b

/-- `json.dumps` of a handler result. -/
def renderResult : HResult → String
  | HResult.errorMsg m => jobj ("\"error\": " ++ jstr m)
  | HResult.errorStatus m s => jobj ("\"error\": " ++ jstr m ++ ", \"status\": " ++ toString s)
  | HResult.backend r => renderRequestResult r
  | HResult.initReady b msg =>
    jobj (joinComma (bodyFields b ++
      ["\"message\": " ++ jstr msg, "\"_continue_chaining\": true"]))

/-- The structured conflict result built at main.py 294-297, as dumped into
the tool turn. -/
def dumpsConflict (start : String) : String :=
  jobj ("\"status\": \"error\", \"message\": " ++
    jstr ("CONFLICT: There is already an event at " ++ start ++
      ". Suggest a different time to the user."))

/-! ## Calendar action handler (`handle_calendar`, calendar_agent.py 6-92) -/

/-- The action names `execute_tool_call` routes to `handle_calendar`
(agent_manager.py 58-62). -/
def calendarFuncs : List String :=
  ["get_all_events", "get_event_by_id", "schedule_event",
   "delete_event", "update_event", "get_system_status",
   "initialize_calendar_session", "check_calendar_connection"]

/-- The schedule/update branch of `handle_calendar` (calendar_agent.py
13-54): map `summary` to `title` (defaulting to "Scheduled Meeting"), drop
`summary`, resolve the end time when a start is present, then issue the
POST/PATCH.  The `_system_context` reference time is forwarded to
`calculate_end_time` as a keyword argument that `**kwargs` discards, so it
does not appear here. -/
def scheduleUpdate (env : Env) (tenantId funcName : String) (args : Args) :
    HResult × List BackendCall :=
  let args := { args with
    title := if truthyO (orStr args.title args.summary) then orStr args.title args.summary
             else some "Scheduled Meeting",
    summary := none }
  let afterTime : Option Args :=
    if truthyO args.startTime then
      match calculate_end_time env.serverOffset args.startTime (args.duration_minutes.getD 60) with
      | none => none
      | some e => some { args with endTime := some e }
    else some args
  match afterTime with
  | none =>
    (HResult.errorMsg "Invalid time format provided. Please use ISO format or clear relative time.", [])
  | some args2 =>
    let endpoint := if funcName == "schedule_event" then "/events"
      else "/events/" ++ args2.event_id.getD "None"
    let method := if funcName == "schedule_event" then "POST" else "PATCH"
    let rc := pyRequest env tenantId method endpoint (some args2)
    (HResult.backend rc.1, [rc.2])

/-- `handle_calendar(func_name, args, calendar_service, user_role)`: the
handler result together with the backend calls it issued. -/
def handle_calendar (env : Env) (tenantId : String) (funcName : String)
    (args : Args) (user_role : String) : HResult × List BackendCall :=
  if funcName == "schedule_event" || funcName == "update_event" then
    scheduleUpdate env tenantId funcName args
  else if funcName == "initialize_calendar_session" then
    let rc := pyRequest env tenantId "GET"
      ("/auth/accessToken?tenant_id=" ++ args.tenant_id.getD "None") none
    match rc.1 with
    | RequestResult.body b =>
      if b.status == some "ready" then
        let pTitle := orStr args.title args.summary
        let pStart := args.startTime
        let facts :=
          (if truthyO pTitle then ["Title=\x27" ++ pTitle.getD "" ++ "\x27"] else []) ++
          (if truthyO pStart then ["StartTime=\x27" ++ pStart.getD "" ++ "\x27"] else [])
        let factBlock := if facts.isEmpty then "" else " [FACTS RECOVERED: " ++ joinComma facts ++ "]"
        (HResult.initReady b ("SUCCESS: Session ready." ++ factBlock ++
          " INSTRUCTION: You are now authorized. Check the PENDING DATA in your system prompt. " ++
          "If you have both a Title and Time, call \x27schedule_event\x27 IMMEDIATELY."), [rc.2])
      else (HResult.backend rc.1, [rc.2])
    | _ => (HResult.backend rc.1, [rc.2])
  else if funcName == "get_all_events" then
    let rc := pyRequest env tenantId "GET" "/events" none
    (HResult.backend rc.1, [rc.2])
  else if funcName == "delete_event" then
    if user_role != "admin" then
      (HResult.errorMsg "Unauthorized: Admin role required for deletion.", [])
    else
      let rc := pyRequest env tenantId "DELETE" ("/events/" ++ args.event_id.getD "None") none
      (HResult.backend rc.1, [rc.2])
  else (HResult.errorMsg ("Function " ++ funcName ++ " not implemented"), [])

/-! ## Tool-call execution (`execute_tool_call`, agent_manager.py 8-78) -/

/-- One step of the amnesia merge (agent_manager.py 26-34): back-fill missing
`startTime`/`title` from one previously proposed action's arguments. -/
def mergeStep (cur : Args) (p : Args) : Args :=
  let cur := if !truthyO cur.startTime && truthyO p.startTime then
      { cur with startTime := p.startTime } else cur
  if !truthyO cur.title && truthyO (orStr p.title p.summary) then
    { cur with title := orStr p.title p.summary }
  else cur

/-- The amnesia merge over the whole history, newest message first, tool
calls within a message in order (agent_manager.py 21-34). -/
def mergeFromHistory (history : List Msg) (args : Args) : Args :=
  history.reverse.foldl (fun a m => m.tool_calls.foldl (fun a tc => mergeStep a tc.args) a) args

/-- The free-text title fallback scan (agent_manager.py 36-44): newest
message first, first regex match wins.  Python renders a `None` content as
the string `"None"` before matching. -/
def scanTitleFallback (env : Env) (history : List Msg) : Option String :=
  history.reverse.findSome? (fun m => env.titleRegex2 (m.content.getD "None"))

/-- `execute_tool_call(tool_call, services, user_role, tenant_id, history)`.
The temporal-context injection stores the per-process clock block into the
arguments; the JWT bookkeeping (`set_auth_token`) only mutates HTTP headers,
which nothing in the modelled behaviour reads, so it has no observable
effect here. -/
def execute_tool_call (env : Env) (tc : ToolCall) (user_role tenantId : String)
    (history : List Msg) : HResult × List BackendCall :=
  let args := tc.args
  let args := if tc.fname == "initialize_calendar_session" && !truthyO args.tenant_id then
      { args with tenant_id := some tenantId } else args
  let args := if tc.fname == "schedule_event" || tc.fname == "initialize_calendar_session" then
      mergeFromHistory history args else args
  let args := if tc.fname == "schedule_event" && !truthyO args.title then
      match scanTitleFallback env history with
      | some t => { args with title := some t }
      | none => args
    else args
  let args := { args with sysContext := some env.sysCtx }
  if calendarFuncs.contains tc.fname then handle_calendar env tenantId tc.fname args user_role
  else (HResult.errorStatus ("Tool " ++ tc.fname ++ " not recognized") 404, [])

/-! ## The agentic loop (`handle_agent_query`, main.py 198-317) -/

/-- The proactive parameter lock-in state (main.py 213). -/
structure Locked where
  title : Option String := none
  startTime : Option String := none
deriving Repr, DecidableEq

/-- Lock-in scan of one message (main.py 214-225): a regex title match, then
any truthy `title`/`startTime` in its proposed-action arguments. -/
def seedLockedMsg (env : Env) (lk : Locked) (m : Msg) : Locked :=
  let lk := match env.titleRegex1 (m.content.getD "") with
    | some t => { lk with title := some t }
    | none => lk
  m.tool_calls.foldl (fun lk tc =>
    let lk := if truthyO tc.args.title then { lk with title := tc.args.title } else lk
    if truthyO tc.args.startTime then { lk with startTime := tc.args.startTime } else lk) lk

/-- The proactive parameter lock-in over the repaired history. -/
def seedLocked (env : Env) (cleaned : List Msg) : Locked :=
  cleaned.foldl (seedLockedMsg env) {}

/-- Loop-carried state of `handle_agent_query`. -/
structure LoopState where
  messages : List Msg
  lockedTitle : Option String
  lockedStart : Option String
  lastAction : String
  calls : List BackendCall
  modelCalls : Nat
deriving Repr, DecidableEq

/-- The value `handle_agent_query` returns, plus the consultation and
backend-call logs that make "never called" claims statable. -/
structure AgentResponse where
  response : Option String
  history : List Msg
  modelCalls : Nat
  backendCalls : List BackendCall
deriving Repr, DecidableEq

/-- The placeholder test of the proactive argument injection (main.py 272). -/
def isPlaceholderTitle : Option String → Bool
  | none => true
  | some s => s == "" || pyLower s == "unknown" || pyLower s == "string"

/-- Proactive argument injection (main.py 267-275): fill a missing or
placeholder `schedule_event` title from the locked title. -/
def injectTitle (lockedTitle : Option String) (tc : ToolCall) : ToolCall :=
  if tc.fname == "schedule_event" && isPlaceholderTitle tc.args.title && truthyO lockedTitle then
    { tc with args := { tc.args with title := lockedTitle } }
  else tc

/-- The tool-result turn appended for a processed tool call. -/
def toolMsg (tc : ToolCall) (content : String) : Msg :=
  { role := "tool", content := some content, tool_calls := [],
    tool_call_id := some tc.id, name := some tc.fname }

/-- Whether a result makes the loop record readiness (main.py 314-315):
`status == "ready"` or a `_continue_chaining` flag. -/
def resReady : HResult → Bool
  | HResult.backend (RequestResult.body b) => b.status == some "ready"
  | HResult.initReady _ _ => true
  | _ => false

/-- The conflict-check interception for a `schedule_event` proposal
(main.py 285-302).  `Sum.inl` is the blocked state (the `continue` branch:
conflict result appended, no dispatch); `Sum.inr` is the state in which
normal dispatch proceeds (recording the conflict-check GET when the check
ran and answered false).  A `None`/empty start or an unparsable start makes
the guard `start and end` fail, so the check is skipped entirely. -/
def interceptSchedule (env : Env) (tenantId : String) (st : LoopState) (tc : ToolCall) :
    Sum LoopState LoopState :=
  if tc.fname == "schedule_event" then
    let start := tc.args.startTime
    let endT := calculate_end_time env.serverOffset start (tc.args.duration.getD 60)
    if truthyO start && truthyO endT then
      let cc := check_conflicts env tenantId (start.getD "") (endT.getD "")
      if cc.1 then
        Sum.inl { st with
          messages := st.messages ++ [toolMsg tc (dumpsConflict (start.getD ""))],
          lastAction := "Blocked by scheduling conflict",
          calls := st.calls ++ [cc.2] }
      else Sum.inr { st with calls := st.calls ++ [cc.2] }
    else Sum.inr st
  else Sum.inr st

/-- Processing of one proposed action inside a round (main.py 284-315):
conflict-check interception for `schedule_event`, otherwise normal dispatch,
then lock-in and status updates. -/
def processToolCall (env : Env) (tenantId user_role : String) (cleaned : List Msg)
    (st : LoopState) (tc : ToolCall) : LoopState :=
  match interceptSchedule env tenantId st tc with
  | Sum.inl done => done
  | Sum.inr st1 =>
    let er := execute_tool_call env tc user_role tenantId cleaned
    let st2 := { st1 with
      messages := st1.messages ++ [toolMsg tc (renderResult er.1)],
      calls := st1.calls ++ er.2 }
    let st3 := if tc.fname == "schedule_event" && truthyO tc.args.title then
        { st2 with lockedTitle := tc.args.title } else st2
    if resReady er.1 then { st3 with lastAction := "System Ready after " ++ tc.fname } else st3

/-- The ephemeral per-round status turn (main.py 250-253). -/
def stateInjection (env : Env) (userTz : String) (st : LoopState) (i : Nat) : Msg :=
  let lockStr := joinComma
    ((if truthyO st.lockedTitle then ["title: " ++ st.lockedTitle.getD ""] else []) ++
     (if truthyO st.lockedStart then ["startTime: " ++ st.lockedStart.getD ""] else []))
  { role := "system",
    content := some ("STATE: " ++ st.lastAction ++ " | NOW (UTC): " ++ env.nowStr i ++
      " | LOCKED_PARAMETERS: " ++ (if lockStr == "" then "None" else lockStr) ++
      ". DO NOT ask for items in LOCKED_PARAMETERS. | Note: If user says \x27tomorrow\x27, calculate based on " ++
      userTz ++ ".") }

/-- What is sent to the model this round (main.py 255-258): the status turn
is spliced after the system turn unless the previous turn is an assistant
turn still carrying tool calls. -/
def loopMessagesFor (st : LoopState) (inj : Msg) : List Msg :=
  match st.messages.getLast? with
  | some m =>
    if m.role == "assistant" && !m.tool_calls.isEmpty then st.messages
    else
      match st.messages with
      | [] => [inj]
      | h :: t => h :: inj :: t
  | none => [inj]

/-- One round of the loop (main.py 246-315): build the ephemeral status
turn, consult the model, run the proactive argument injection, append the
assistant turn; `Sum.inl` is the early return when no action was proposed
(main.py 280-281), `Sum.inr` the state after executing every proposed
action. -/
def roundStep (env : Env) (tenantId user_role userTz : String) (cleaned : List Msg)
    (i : Nat) (st : LoopState) : Sum AgentResponse LoopState :=
  let inj := stateInjection env userTz st i
  let turn := env.model (loopMessagesFor st inj)
  let injected := turn.toolCalls.map (injectTitle st.lockedTitle)
  let assistantMsg : Msg := { role := "assistant", content := turn.content, tool_calls := injected }
  let st1 := { st with messages := st.messages ++ [assistantMsg], modelCalls := st.modelCalls + 1 }
  if injected.isEmpty then
    Sum.inl { response := turn.content, history := st1.messages.drop 1,
              modelCalls := st1.modelCalls, backendCalls := st1.calls }
  else Sum.inr (injected.foldl (processToolCall env tenantId user_role cleaned) st1)

/-- The degraded response on round-cap exhaustion (main.py 317):
`messages[-1].get("content")` with the history minus the system turn. -/
def capResponse (st : LoopState) : AgentResponse :=
  { response := st.messages.getLast?.bind (fun m => m.content),
    history := st.messages.drop 1,
    modelCalls := st.modelCalls, backendCalls := st.calls }

/-- The `for i in range(5)` loop (main.py 246-317): `remaining` counts the
rounds left, `i` the current round index. -/
def agentRounds (env : Env) (tenantId user_role userTz : String) (cleaned : List Msg) :
    Nat → Nat → LoopState → AgentResponse
  | 0, _, st => capResponse st
  | remaining + 1, i, st =>
    match roundStep env tenantId user_role userTz cleaned i st with
    | Sum.inl resp => resp
    | Sum.inr st2 => agentRounds env tenantId user_role userTz cleaned remaining (i + 1) st2

/-- The leading policy/system turn. -/
def systemMsg (env : Env) : Msg := { role := "system", content := some env.sysPrompt }

/-- `handle_agent_query` (main.py 198-317).  `user_role` arrives already
lowercased by `verify_tenant_access`; the session-recovery scan only mutates
the Authorization header, which nothing observable reads, so it is omitted. -/
def handle_agent_query (env : Env) (tenantId user_role userTz : String)
    (prompt : String) (history : List Msg) : AgentResponse :=
  if ["clear", "reset", "/clear"].contains (pyStrip (pyLower prompt)) then
    { response := some "Conversation history cleared.", history := [],
      modelCalls := 0, backendCalls := [] }
  else
    let cleaned := repairHistory history
    let lk := seedLocked env cleaned
    let messages := systemMsg env ::
      (sanitize_history cleaned ++ [{ role := "user", content := some prompt }])
    agentRounds env tenantId user_role userTz cleaned 5 0
      { messages := messages, lockedTitle := lk.title, lockedStart := lk.startTime,
        lastAction := "Waiting for input", calls := [], modelCalls := 0 }

/-! ## Claim-side helpers and concrete fixtures -/

/-- The text content of the last assistant turn of a turn sequence (what the
spec calls "the last available assistant text"). -/
def lastAssistantText (ms : List Msg) : Option String :=
  ((ms.filter (fun m => m.role == "assistant")).getLast?).bind (fun m => m.content)

/-- A plain 200 response with an empty JSON body. -/
def okResp : HttpResp := { status_code := 200, text := "", body := {} }

/-- A 200 response reporting a scheduling conflict. -/
def conflictResp : HttpResp := { status_code := 200, text := "", body := { hasConflict := some true } }

/-- A baseline environment: healthy transport, a model that answers with
plain text, server offset `+03:00`. -/
def baseEnv : Env :=
  { baseUrl := "http://localhost:3005", serverOffset := "+03:00",
    sysPrompt := "SYS",
    sysCtx := ⟨"2025-06-01T10:00:00+03:00", "Sunday", "+03:00"⟩,
    nowStr := fun _ => "12:00 PM UTC",
    doReq := fun _ _ _ => Except.ok okResp,
    model := fun _ => { content := some "Hello" },
    titleRegex1 := fun _ => none, titleRegex2 := fun _ => none }

/-- Environment whose transport always fails (retries exhausted). -/
def envDown : Env := { baseEnv with doReq := fun _ _ _ => Except.error () }

/-- Environment whose backend always reports a conflict. -/
def envConflict : Env := { baseEnv with doReq := fun _ _ _ => Except.ok conflictResp }

/-- Environment whose model proposes an action in every round. -/
def envBusy : Env :=
  { baseEnv with
    model := fun _ => { content := some "Working on it",
                        toolCalls := [⟨"call1", "get_all_events", {}⟩] } }

/-- A schedule proposal with a timezone-naive start. -/
def schedNaive : ToolCall :=
  ⟨"c1", "schedule_event",
   { title := some "X", startTime := some "2025-06-01T14:00", duration_minutes := some 30 }⟩

/-- Environment whose model proposes `schedNaive` until a tool result
appears, then answers with text. -/
def envSched : Env :=
  { baseEnv with
    model := fun ms =>
      if ms.any (fun m => m.role == "tool") then { content := some "Done" }
      else { content := none, toolCalls := [schedNaive] } }

/-- A schedule proposal as the loop sees it, with the `duration` key the
conflict interception reads. -/
def schedConf : ToolCall :=
  ⟨"c9", "schedule_event", { startTime := some "2025-06-01T14:00", duration := some 30 }⟩

/-- A transport that fails on the first three attempts and succeeds on the
fourth. -/
def failThrice : Nat → Except Unit HttpResp :=
  fun i => if i < 3 then Except.error () else Except.ok okResp

/-- Two-turn history whose older turn has over-long content. -/
def histShortLong : List Msg :=
  [{ role := "user", content := some "aaaaaaa" }, { role := "user", content := some "hi" }]

/-- An empty loop state over an empty message list. -/
def stEmpty : LoopState :=
  { messages := [], lockedTitle := none, lockedStart := none,
    lastAction := "Waiting for input", calls := [], modelCalls := 0 }

/-! ## General lemmas about the embedding -/

theorem pyRequest_snd (env : Env) (tenantId method path : String) (jd : Option Args) :
    (pyRequest env tenantId method path jd).2 =
      ⟨method, path, normalizeTimes env.serverOffset jd⟩ := by
  unfold pyRequest
  split <;> rfl

theorem check_conflicts_snd (env : Env) (tenantId s e : String) :
    (check_conflicts env tenantId s e).2 =
      ⟨"GET",
       "/events/check-conflicts?startTime=" ++
         pctQuote (ensure_timezone_offset env.serverOffset s) ++
         "&endTime=" ++ pctQuote (ensure_timezone_offset env.serverOffset e),
       none⟩ := by
  simp only [check_conflicts]
  split <;> rw [pyRequest_snd] <;> rfl

theorem normStart_keeps (off : String) (a : Args) :
    (normStart off a).title = a.title ∧ (normStart off a).summary = a.summary ∧
      (normStart off a).endTime = a.endTime := by
  unfold normStart
  split
  · split <;> exact ⟨rfl, rfl, rfl⟩
  · exact ⟨rfl, rfl, rfl⟩

theorem normEnd_keeps (off : String) (a : Args) :
    (normEnd off a).title = a.title ∧ (normEnd off a).summary = a.summary ∧
      (normEnd off a).startTime = a.startTime := by
  unfold normEnd
  split
  · split <;> exact ⟨rfl, rfl, rfl⟩
  · exact ⟨rfl, rfl, rfl⟩

theorem normalizeTimes_keeps (off : String) (a : Args) :
    ∃ p, normalizeTimes off (some a) = some p ∧ p.title = a.title ∧ p.summary = a.summary := by
  refine ⟨normEnd off (normStart off a), rfl, ?_, ?_⟩
  · rw [(normEnd_keeps off _).1, (normStart_keeps off a).1]
  · rw [(normEnd_keeps off _).2.1, (normStart_keeps off a).2.1]

theorem sanitizeMsg_id_of_short (maxLen : Nat) (b : Bool) (m : Msg)
    (h : ∀ c, m.content = some c → c.length ≤ maxLen) : sanitizeMsg maxLen b m = m := by
  unfold sanitizeMsg
  match hc : m.content with
  | none => rfl
  | some c =>
    have hlen := h c hc
    simp [decide_eq_false (Nat.not_lt.mpr hlen)]

theorem sanitizeFrom_id (maxLen r : Nat) (h : List Msg)
    (hb : ∀ m ∈ h, ∀ c, m.content = some c → c.length ≤ maxLen) :
    ∀ i, sanitizeFrom maxLen r i h = h := by
  induction h with
  | nil => intro i; rfl
  | cons m t ih =>
    intro i
    have h1 : sanitizeMsg maxLen (r ≤ i) m = m :=
      sanitizeMsg_id_of_short maxLen _ m (hb m (List.mem_cons_self m t))
    simp only [sanitizeFrom, h1]
    rw [ih (fun m hm => hb m (List.mem_cons_of_mem _ hm))]

theorem dropWhile_append_all (p : Msg → Bool) (l t : List Msg)
    (h : ∀ m ∈ l, p m = true) :
    (l ++ t).dropWhile p = t.dropWhile p := by
  induction l with
  | nil => rfl
  | cons a l ih =>
    have ha : p a = true := h a (List.mem_cons_self a l)
    simp only [List.cons_append, List.dropWhile, ha]
    exact ih (fun m hm => h m (List.mem_cons_of_mem _ hm))

/-! ## Claim C9 -/

/-- Claim C9: a prompt that lowercases-and-trims to `clear`, `reset` or
`/clear` makes the chat endpoint return the fixed confirmation text and an
empty history, with no model consultation, no backend call, and without
entering the agentic loop. -/
theorem c9_clear_shortcut (env : Env) (tenantId user_role userTz prompt : String)
    (history : List Msg)
    (h : ["clear", "reset", "/clear"].contains (pyStrip (pyLower prompt)) = true) :
    handle_agent_query env tenantId user_role userTz prompt history =
      { response := some "Conversation history cleared.", history := [],
        modelCalls := 0, backendCalls := [] } := by
  unfold handle_agent_query
  rw [if_pos h]

theorem c9_clear_shortcut_witness :
    ["clear", "reset", "/clear"].contains (pyStrip (pyLower "  CLEAR ")) = true ∧
    handle_agent_query baseEnv "t1" "associate" "UTC" "  CLEAR " [] =
      { response := some "Conversation history cleared.", history := [],
        modelCalls := 0, backendCalls := [] } :=
  ⟨by decide, c9_clear_shortcut baseEnv "t1" "associate" "UTC" "  CLEAR " [] (by decide)⟩

/-! ## Claim C7 -/

/-- Claim C7: when the transport underlying the conflict check fails (its
retries exhausted, surfacing as the caught error), `check_conflicts` answers
`false` — it fails open instead of propagating an error. -/
theorem c7_conflict_fails_open (env : Env) (tenantId startIso endIso : String)
    (h : ∀ path, env.doReq "GET" path none = Except.error ()) :
    (check_conflicts env tenantId startIso endIso).1 = false := by
  simp [check_conflicts, pyRequest, normalizeTimes, h]

theorem c7_conflict_fails_open_witness :
    (∀ path, envDown.doReq "GET" path none = Except.error ()) ∧
    (check_conflicts envDown "t1" "2025-06-01T14:00" "2025-06-01T15:00").1 = false :=
  ⟨fun _ => rfl,
   c7_conflict_fails_open envDown "t1" "2025-06-01T14:00" "2025-06-01T15:00" (fun _ => rfl)⟩

/-! ## Claim C1 -/

/-- Claim C1 (code versus claim, evaluated): a non-admin delete with
`confirmed=true` is rejected `Unauthorized` with no backend call — but an
admin delete with `confirmed=false` goes straight to the backend `DELETE`:
`handle_calendar` contains no confirmation check at all, contradicting the
`delete_event` schema documentation in `tools.py` ("Requires admin role and
explicit user confirmation"). -/
theorem c1_delete_policy_eval :
    handle_calendar baseEnv "t1" "delete_event"
        { event_id := some "e1", confirmed := some true } "viewer" =
      (HResult.errorMsg "Unauthorized: Admin role required for deletion.", []) ∧
    handle_calendar baseEnv "t1" "delete_event"
        { event_id := some "e1", confirmed := some false } "admin" =
      (HResult.backend (RequestResult.body {}),
       [{ method := "DELETE", path := "/events/e1", payload := none }]) := by
  constructor <;> rfl

/-! ## Claim C2 -/

/-- Claim C2 refuted: with the retry cap 3, a transport that fails on 3
consecutive attempts is tried a 4th time, and when that 4th attempt succeeds
the dispatcher returns its body, not a BackendUnavailable-style result. -/
theorem c2_counterexample :
    (∀ i, i < 3 → failThrice i = Except.error ()) ∧
    (requestWithRetry "http://b" "t1" 3 failThrice).2 = 4 ∧
    (requestWithRetry "http://b" "t1" 3 failThrice).1 ≠ RequestResult.systemOffline := by
  refine ⟨?_, by decide, by decide⟩
  intro i hi
  simp [failThrice, hi]

/-- Claim C2 as amended: under the retry cap 3 the call is attempted at most
4 times (initial try plus 3 retries); when all 4 attempts fail the dispatcher
returns the structured `system_offline` result — no raised transport error
and no 5th attempt. -/
theorem c2_amended (baseUrl tenantId : String) (f : Nat → Except Unit HttpResp)
    (h : ∀ i, i ≤ 3 → f i = Except.error ()) :
    requestWithRetry baseUrl tenantId 3 f = (RequestResult.systemOffline, 4) := by
  have h0 := h 0 (by omega)
  have h1 := h 1 (by omega)
  have h2 := h 2 (by omega)
  have h3 := h 3 (by omega)
  simp [requestWithRetry, retry_with_backoff, retryGo, h0, h1, h2, h3]

theorem c2_amended_witness :
    requestWithRetry "http://b" "t1" 3 (fun _ => Except.error ()) =
      (RequestResult.systemOffline, 4) :=
  c2_amended "http://b" "t1" (fun _ => Except.error ()) (fun _ _ => rfl)

/-! ## Claim C4 -/

/-- Claim C4 refuted: sanitizing twice is not the same as sanitizing once.
An older turn whose content exceeds the maximum is truncated and marked; the
marked content still exceeds the maximum, so a second pass truncates again
and rewrites the elision marker with a different count. -/
theorem c4_counterexample :
    sanitize_history (sanitize_history histShortLong 5 1) 5 1 ≠
      sanitize_history histShortLong 5 1 := by
  decide

/-- Claim C4 as amended: the sanitizer is idempotent on turn sequences in
which no turn's text content exceeds the maximum length (it is then the
identity); in general a second pass re-truncates already-marked content. -/
theorem c4_amended (maxLen keepN : Nat) (h : List Msg)
    (hb : ∀ m ∈ h, ∀ c, m.content = some c → c.length ≤ maxLen) :
    sanitize_history (sanitize_history h maxLen keepN) maxLen keepN =
      sanitize_history h maxLen keepN := by
  have e : sanitize_history h maxLen keepN = h := by
    unfold sanitize_history
    exact sanitizeFrom_id maxLen _ h hb 0
  rw [e]
  exact e

theorem c4_amended_witness :
    sanitize_history (sanitize_history [{ role := "user", content := some "hi" }] 5 0) 5 0 =
      sanitize_history [{ role := "user", content := some "hi" }] 5 0 :=
  c4_amended 5 0 [{ role := "user", content := some "hi" }]
    (by
      rintro m hm c hc
      rcases List.mem_singleton.mp hm with rfl
      cases hc
      decide)

/-! ## Claim C8 -/

/-- Claim C8: history repair removes exactly the maximal trailing run of
assistant turns that still carry proposed actions (which, being at the tail,
can have no matching result turns), and removes nothing else. -/
theorem c8_history_repair (p r : List Msg)
    (hr : ∀ m ∈ r, isDangling m = true)
    (hp : p = [] ∨ ∃ m, p.getLast? = some m ∧ isDangling m = false) :
    repairHistory (p ++ r) = p := by
  unfold repairHistory
  rw [List.reverse_append]
  rw [dropWhile_append_all isDangling r.reverse p.reverse
    (fun m hm => hr m (List.mem_reverse.mp hm))]
  rcases hp with rfl | ⟨m, hm, hdm⟩
  · simp
  · have hhead : p.reverse.head? = some m := by rw [List.head?_reverse]; exact hm
    match hrev : p.reverse with
    | [] => rw [hrev] at hhead; cases hhead
    | a :: t =>
      rw [hrev] at hhead
      have ham : a = m := by cases hhead; rfl
      subst ham
      simp only [List.dropWhile, hdm]
      rw [← hrev, List.reverse_reverse]

theorem c8_history_repair_witness :
    (∀ m ∈ [({ role := "assistant", content := some "calling",
               tool_calls := [⟨"c2", "get_all_events", {}⟩] } : Msg)], isDangling m = true) ∧
    repairHistory ([{ role := "user", content := some "hi" }] ++
        [{ role := "assistant", content := some "calling",
           tool_calls := [⟨"c2", "get_all_events", {}⟩] }]) =
      [{ role := "user", content := some "hi" }] :=
  ⟨by decide,
   c8_history_repair [{ role := "user", content := some "hi" }]
     [{ role := "assistant", content := some "calling",
        tool_calls := [⟨"c2", "get_all_events", {}⟩] }]
     (by decide)
     (Or.inr ⟨{ role := "user", content := some "hi" }, by decide, by decide⟩)⟩

/-! ## Claim C10 -/

theorem scheduleUpdate_default_title (env : Env) (tenantId funcName : String) (args : Args)
    (ht : truthyO args.title = false) (hs : truthyO args.summary = false) :
    ∀ c ∈ (scheduleUpdate env tenantId funcName args).2,
      ∃ p, c.payload = some p ∧ p.title = some "Scheduled Meeting" ∧ p.summary = none := by
  have hor : orStr args.title args.summary = args.summary := by
    unfold orStr
    rw [ht]
    rfl
  have htr : truthyO (orStr args.title args.summary) = false := by rw [hor]; exact hs
  simp only [scheduleUpdate, htr, Bool.false_eq_true, if_false]
  split
  · intro c hc
    simp at hc
  · rename_i args2 heq
    intro c hc
    rw [List.mem_singleton] at hc
    subst hc
    rw [pyRequest_snd]
    refine ⟨normEnd env.serverOffset (normStart env.serverOffset args2), rfl, ?_, ?_⟩
    · rw [(normEnd_keeps env.serverOffset _).1, (normStart_keeps env.serverOffset args2).1]
      split at heq
      · split at heq
        · cases heq
        · cases heq
          rfl
      · cases heq
        rfl
    · rw [(normEnd_keeps env.serverOffset _).2.1, (normStart_keeps env.serverOffset args2).2.1]
      split at heq
      · split at heq
        · cases heq
        · cases heq
          rfl
      · cases heq
        rfl

/-- Claim C10: a schedule/update action whose arguments carry neither a
non-empty title nor a non-empty summary gets its title set to the fixed
default "Scheduled Meeting" before the backend call is issued, and the
superseded `summary` key is removed from the arguments. -/
theorem c10_default_title (env : Env) (tenantId : String) (args : Args)
    (user_role funcName : String)
    (hf : funcName = "schedule_event" ∨ funcName = "update_event")
    (ht : truthyO args.title = false) (hs : truthyO args.summary = false) :
    ∀ c ∈ (handle_calendar env tenantId funcName args user_role).2,
      ∃ p, c.payload = some p ∧ p.title = some "Scheduled Meeting" ∧ p.summary = none := by
  rcases hf with rfl | rfl
  · exact scheduleUpdate_default_title env tenantId "schedule_event" args ht hs
  · exact scheduleUpdate_default_title env tenantId "update_event" args ht hs

theorem c10_default_title_witness :
    ∃ p, ({ method := "PATCH", path := "/events/e1",
            payload := some { title := some "Scheduled Meeting", event_id := some "e1" } } :
             BackendCall).payload = some p ∧
      p.title = some "Scheduled Meeting" ∧ p.summary = none :=
  c10_default_title baseEnv "t1" { event_id := some "e1" } "associate" "update_event"
    (Or.inr rfl) rfl rfl
    { method := "PATCH", path := "/events/e1",
      payload := some { title := some "Scheduled Meeting", event_id := some "e1" } }
    (by decide)

/-! ## Claim C6 -/

theorem interceptSchedule_blocks (env : Env) (tenantId : String) (st : LoopState)
    (tc : ToolCall) (s e : String)
    (hf : tc.fname = "schedule_event")
    (hs : tc.args.startTime = some s) (hs0 : s ≠ "")
    (he : calculate_end_time env.serverOffset (some s) (tc.args.duration.getD 60) = some e)
    (he0 : e ≠ "")
    (hc : (check_conflicts env tenantId s e).1 = true) :
    interceptSchedule env tenantId st tc =
      Sum.inl { st with
        messages := st.messages ++ [toolMsg tc (dumpsConflict s)],
        lastAction := "Blocked by scheduling conflict",
        calls := st.calls ++ [(check_conflicts env tenantId s e).2] } := by
  simp [interceptSchedule, hf, hs, he, truthyO, hs0, he0, hc]

/-- Claim C6: a schedule proposal whose resolved start/end pair the conflict
check reports as conflicting gets a structured conflict result appended
(telling the model to suggest a different time), and no backend call beyond
the conflict-check GET is made for that proposal — in particular the create
endpoint `POST /events` is never called. -/
theorem c6_conflict_blocks_create (env : Env) (tenantId user_role : String)
    (cleaned : List Msg) (st : LoopState) (tc : ToolCall) (s e : String)
    (hf : tc.fname = "schedule_event")
    (hs : tc.args.startTime = some s) (hs0 : s ≠ "")
    (he : calculate_end_time env.serverOffset (some s) (tc.args.duration.getD 60) = some e)
    (he0 : e ≠ "")
    (hc : (check_conflicts env tenantId s e).1 = true) :
    processToolCall env tenantId user_role cleaned st tc =
      { st with
        messages := st.messages ++ [toolMsg tc (dumpsConflict s)],
        lastAction := "Blocked by scheduling conflict",
        calls := st.calls ++ [(check_conflicts env tenantId s e).2] } ∧
    (check_conflicts env tenantId s e).2.method = "GET" ∧
    (check_conflicts env tenantId s e).2.path ≠ "/events" := by
  refine ⟨?_, ?_, ?_⟩
  · unfold processToolCall
    rw [interceptSchedule_blocks env tenantId st tc s e hf hs hs0 he he0 hc]
  · rw [check_conflicts_snd]
  · rw [check_conflicts_snd]
    intro hq
    have hl := congrArg String.length hq
    simp only [String.length_append] at hl
    rw [show String.length "/events/check-conflicts?startTime=" = 34 from rfl,
        show String.length "&endTime=" = 9 from rfl,
        show String.length "/events" = 7 from rfl] at hl
    omega

theorem c6_conflict_blocks_create_witness :
    (check_conflicts envConflict "t1" "2025-06-01T14:00" "2025-06-01T14:30:00+03:00").1 = true ∧
    processToolCall envConflict "t1" "associate" [] stEmpty schedConf =
      { stEmpty with
        messages := [toolMsg schedConf (dumpsConflict "2025-06-01T14:00")],
        lastAction := "Blocked by scheduling conflict",
        calls := [(check_conflicts envConflict "t1" "2025-06-01T14:00"
          "2025-06-01T14:30:00+03:00").2] } ∧
    (check_conflicts envConflict "t1" "2025-06-01T14:00" "2025-06-01T14:30:00+03:00").2.method =
      "GET" ∧
    (check_conflicts envConflict "t1" "2025-06-01T14:00" "2025-06-01T14:30:00+03:00").2.path ≠
      "/events" := by
  have h := c6_conflict_blocks_create envConflict "t1" "associate" [] stEmpty schedConf
    "2025-06-01T14:00" "2025-06-01T14:30:00+03:00" rfl rfl (by decide) (by decide)
    (by decide) (by decide)
  exact ⟨by decide, h.1, h.2.1, h.2.2⟩

/-! ## Claim C3 -/

theorem interceptSchedule_inl_messages (env : Env) (tenantId : String) (st : LoopState)
    (tc : ToolCall) (done : LoopState)
    (h : interceptSchedule env tenantId st tc = Sum.inl done) :
    ∃ c, done.messages = st.messages ++ [toolMsg tc c] := by
  simp only [interceptSchedule] at h
  split at h
  · split at h
    · split at h
      · cases h
        exact ⟨_, rfl⟩
      · cases h
    · cases h
  · cases h

theorem interceptSchedule_inr_messages (env : Env) (tenantId : String) (st : LoopState)
    (tc : ToolCall) (st1 : LoopState)
    (h : interceptSchedule env tenantId st tc = Sum.inr st1) :
    st1.messages = st.messages := by
  simp only [interceptSchedule] at h
  split at h
  · split at h
    · split at h
      · cases h
      · cases h
        rfl
    · cases h
      rfl
  · cases h
    rfl

theorem processToolCall_appends (env : Env) (tenantId user_role : String)
    (cleaned : List Msg) (st : LoopState) (tc : ToolCall) :
    ∃ c, (processToolCall env tenantId user_role cleaned st tc).messages =
      st.messages ++ [toolMsg tc c] := by
  cases hi : interceptSchedule env tenantId st tc with
  | inl done =>
    obtain ⟨c, hc⟩ := interceptSchedule_inl_messages env tenantId st tc done hi
    refine ⟨c, ?_⟩
    unfold processToolCall
    rw [hi]
    exact hc
  | inr st1 =>
    have hm := interceptSchedule_inr_messages env tenantId st tc st1 hi
    refine ⟨renderResult (execute_tool_call env tc user_role tenantId cleaned).1, ?_⟩
    unfold processToolCall
    rw [hi]
    dsimp only
    split <;> split <;> simp [hm]

theorem foldl_processToolCall_messages (env : Env) (tenantId user_role : String)
    (cleaned : List Msg) (tcs : List ToolCall) :
    ∀ st : LoopState, tcs ≠ [] →
      ∃ rest tc c,
        (tcs.foldl (processToolCall env tenantId user_role cleaned) st).messages =
          st.messages ++ rest ++ [toolMsg tc c] := by
  induction tcs with
  | nil => intro st h; exact absurd rfl h
  | cons a t ih =>
    intro st _
    cases t with
    | nil =>
      obtain ⟨c, hc⟩ := processToolCall_appends env tenantId user_role cleaned st a
      exact ⟨[], a, c, by simpa using hc⟩
    | cons b t2 =>
      obtain ⟨rest, tc, c, hc⟩ :=
        ih (processToolCall env tenantId user_role cleaned st a) (by simp)
      obtain ⟨c0, hc0⟩ := processToolCall_appends env tenantId user_role cleaned st a
      refine ⟨toolMsg a c0 :: rest, tc, c, ?_⟩
      rw [List.foldl_cons, hc, hc0]
      simp [List.append_assoc]

theorem roundStep_busy (env : Env) (tenantId user_role userTz : String) (cleaned : List Msg)
    (i : Nat) (st : LoopState)
    (hm : (env.model (loopMessagesFor st (stateInjection env userTz st i))).toolCalls ≠ []) :
    ∃ st2 mid tc c,
      roundStep env tenantId user_role userTz cleaned i st = Sum.inr st2 ∧
        st2.messages = st.messages ++ mid ++ [toolMsg tc c] := by
  simp only [roundStep]
  set turn := env.model (loopMessagesFor st (stateInjection env userTz st i)) with hturn
  set injected := turn.toolCalls.map (injectTitle st.lockedTitle) with hinj
  have hne : injected ≠ [] := by
    intro h
    apply hm
    rwa [hinj, List.map_eq_nil_iff] at h
  have hempty : injected.isEmpty = false := by
    cases hi : injected with
    | nil => exact absurd hi hne
    | cons a l => rfl
  rw [if_neg (by rw [hempty]; exact Bool.false_ne_true)]
  have hst1 :
      ({ st with
          messages := st.messages ++
            [{ role := "assistant", content := turn.content, tool_calls := injected }],
          modelCalls := st.modelCalls + 1 } : LoopState).messages =
        st.messages ++
          [{ role := "assistant", content := turn.content, tool_calls := injected }] := rfl
  obtain ⟨rest, tc, c, hmsg⟩ :=
    foldl_processToolCall_messages env tenantId user_role cleaned injected
      { st with
        messages := st.messages ++
          [{ role := "assistant", content := turn.content, tool_calls := injected }],
        modelCalls := st.modelCalls + 1 } hne
  refine ⟨_, ({ role := "assistant", content := turn.content, tool_calls := injected } : Msg) :: rest,
    tc, c, rfl, ?_⟩
  rw [hmsg, hst1]
  simp [List.append_assoc]

theorem agentRounds_succ (env : Env) (tenantId user_role userTz : String)
    (cleaned : List Msg) (n i : Nat) (st : LoopState) :
    agentRounds env tenantId user_role userTz cleaned (n + 1) i st =
      match roundStep env tenantId user_role userTz cleaned i st with
      | Sum.inl resp => resp
      | Sum.inr st2 => agentRounds env tenantId user_role userTz cleaned n (i + 1) st2 := rfl

theorem agentRounds_cap (env : Env) (tenantId user_role userTz : String)
    (cleaned : List Msg)
    (hm : ∀ ms, (env.model ms).toolCalls ≠ []) :
    ∀ (n i : Nat) (st : LoopState), st.messages ≠ [] →
      ∃ m,
        (agentRounds env tenantId user_role userTz cleaned (n + 1) i st).history.getLast? =
            some m ∧
          m.role = "tool" ∧
          (agentRounds env tenantId user_role userTz cleaned (n + 1) i st).response =
            m.content := by
  intro n
  induction n with
  | zero =>
    intro i st hne
    obtain ⟨st2, mid, tc, c, hstep, hmsg⟩ :=
      roundStep_busy env tenantId user_role userTz cleaned i st (hm _)
    rw [agentRounds_succ, hstep]
    match hms : st.messages, hne with
    | h0 :: t0, _ =>
      rw [hms] at hmsg
      refine ⟨toolMsg tc c, ?_, rfl, ?_⟩
      · show ((agentRounds env tenantId user_role userTz cleaned 0 (i + 1) st2).history).getLast? =
          some (toolMsg tc c)
        show (st2.messages.drop 1).getLast? = some (toolMsg tc c)
        rw [hmsg]
        rw [show (h0 :: t0) ++ mid ++ [toolMsg tc c] = h0 :: (t0 ++ mid ++ [toolMsg tc c]) by
          simp]
        rw [List.drop_one, List.tail_cons]
        rw [show t0 ++ mid ++ [toolMsg tc c] = (t0 ++ mid) ++ [toolMsg tc c] from rfl]
        exact List.getLast?_concat _
      · show (st2.messages.getLast?.bind (fun m => m.content)) = (toolMsg tc c).content
        rw [hmsg]
        rw [show (h0 :: t0) ++ mid ++ [toolMsg tc c] = ((h0 :: t0) ++ mid) ++ [toolMsg tc c]
          from rfl]
        rw [List.getLast?_concat]
        rfl
  | succ k ih =>
    intro i st hne
    obtain ⟨st2, mid, tc, c, hstep, hmsg⟩ :=
      roundStep_busy env tenantId user_role userTz cleaned i st (hm _)
    rw [agentRounds_succ, hstep]
    apply ih (i + 1) st2
    rw [hmsg]
    simp

/-- Claim C3 refuted at a concrete run: with a model that proposes an action
in every round, the loop exhausts its 5-round cap and the returned response
is the content of the final tool-result turn (here the dumped backend body),
not the text of the last assistant turn. -/
theorem c3_counterexample :
    (handle_agent_query envBusy "t1" "associate" "UTC" "hello" []).response =
        some "\x7b\x7d" ∧
    lastAssistantText (handle_agent_query envBusy "t1" "associate" "UTC" "hello" []).history =
        some "Working on it" ∧
    (handle_agent_query envBusy "t1" "associate" "UTC" "hello" []).response ≠
      lastAssistantText (handle_agent_query envBusy "t1" "associate" "UTC" "hello" []).history := by
  refine ⟨by decide, by decide, by decide⟩

/-- Claim C3 as amended: when the round cap is exhausted while the model is
still proposing actions, the request completes with a degraded response
(no error) whose returned text is the content of the last appended turn —
which is the final tool-result turn of the last round, not the last
assistant turn's text. -/
theorem c3_amended (env : Env) (tenantId user_role userTz prompt : String)
    (history : List Msg)
    (hm : ∀ ms, (env.model ms).toolCalls ≠ [])
    (hp : ["clear", "reset", "/clear"].contains (pyStrip (pyLower prompt)) = false) :
    ∃ m,
      (handle_agent_query env tenantId user_role userTz prompt history).history.getLast? =
          some m ∧
        m.role = "tool" ∧
        (handle_agent_query env tenantId user_role userTz prompt history).response =
          m.content := by
  unfold handle_agent_query
  rw [if_neg (by rw [hp]; exact Bool.false_ne_true)]
  exact agentRounds_cap env tenantId user_role userTz (repairHistory history) hm 4 0 _
    (by simp)

theorem c3_amended_witness :
    ∃ m,
      (handle_agent_query envBusy "t1" "associate" "UTC" "hi there" []).history.getLast? =
          some m ∧
        m.role = "tool" ∧
        (handle_agent_query envBusy "t1" "associate" "UTC" "hi there" []).response =
          m.content :=
  c3_amended envBusy "t1" "associate" "UTC" "hi there" []
    (fun _ => List.cons_ne_nil _ _) (by decide)

/-! ## Claim C5 -/

theorem digCh_isDigit (k : Nat) : (digCh k).isDigit = true := by
  unfold digCh
  split <;> decide

theorem pad2_two_digits (n : Nat) (h : n < 100) :
    ∃ a b, pad2 n = (⟨[a, b]⟩ : String) ∧ a.isDigit = true ∧ b.isDigit = true := by
  unfold pad2
  rw [if_pos h]
  exact ⟨_, _, rfl, digCh_isDigit _, digCh_isDigit _⟩

theorem colonPat_digits (d1 d2 d3 d4 sc : Char) (rest : List Char)
    (h1 : d1.isDigit = true) (h2 : d2.isDigit = true) (h3 : d3.isDigit = true)
    (h4 : d4.isDigit = true) (hs : (sc == '+' || sc == '-') = true) :
    colonPat (d1 :: d2 :: ':' :: d3 :: d4 :: sc :: rest) = true := by
  show (d1.isDigit && d2.isDigit && d3.isDigit && d4.isDigit && (sc == '+' || sc == '-')) = true
  rw [h1, h2, h3, h4, hs]
  rfl

theorem dropFinalNewline_ne (d : Char) (t : List Char) (h : d ≠ '\n') :
    dropFinalNewline (d :: t) = d :: t := by
  unfold dropFinalNewline
  split
  · rename_i heq
    injection heq with h1 _
    exact absurd h1 h
  · rfl

theorem isDigit_ne_newline (d : Char) (h : d.isDigit = true) : d ≠ '\n' := by
  intro he
  subst he
  exact absurd h (by decide)

/-- A string ending in a rendered `±HH:MM` offset passes the suffix regex. -/
theorem hasTzSuffix_renderOff (x : String) (o : TzOff)
    (hh : o.oh < 100) (hm2 : o.om < 100) :
    hasTzSuffix (x ++ renderOff (some o)) = true := by
  obtain ⟨a, b, hab, ha, hb⟩ := pad2_two_digits o.oh hh
  obtain ⟨c, d, hcd, hc, hd⟩ := pad2_two_digits o.om hm2
  have hdata : (x ++ renderOff (some o)).data =
      x.data ++ ((if o.neg then "-" else "+").data ++ ([a, b] ++ ([':'] ++ [c, d]))) := by
    rw [show renderOff (some o) =
        (if o.neg then "-" else "+") ++ pad2 o.oh ++ ":" ++ pad2 o.om from rfl]
    rw [hab, hcd]
    simp [String.data_append]
  unfold hasTzSuffix
  rw [hdata]
  cases hn : o.neg
  · have : (x.data ++ ((if false then "-" else "+").data ++ ([a, b] ++ ([':'] ++ [c, d])))).reverse =
        d :: c :: ':' :: b :: a :: '+' :: x.data.reverse := by
      simp
    rw [this, dropFinalNewline_ne d _ (isDigit_ne_newline d hd)]
    unfold tzSuffixCore
    rw [colonPat_digits d c b a '+' _ hd hc hb ha (by decide)]
    simp
  · have : (x.data ++ ((if true then "-" else "+").data ++ ([a, b] ++ ([':'] ++ [c, d])))).reverse =
        d :: c :: ':' :: b :: a :: '-' :: x.data.reverse := by
      simp
    rw [this, dropFinalNewline_ne d _ (isDigit_ne_newline d hd)]
    unfold tzSuffixCore
    rw [colonPat_digits d c b a '-' _ hd hc hb ha (by decide)]
    simp

theorem parseOff_bounds (l : List Char) (o : TzOff)
    (h : parseOff l = some (some o)) : o.oh < 100 ∧ o.om < 100 := by
  unfold parseOff at h
  split at h
  · cases h
  · split at h
    · split at h
      · split at h
        · rename_i hcond
          cases h
          simp only [Bool.and_eq_true, decide_eq_true_eq] at hcond
          dsimp only
          omega
        · cases h
      · cases h
    · cases h
  · split at h
    · split at h
      · split at h
        · rename_i hcond
          cases h
          simp only [Bool.and_eq_true, decide_eq_true_eq] at hcond
          dsimp only
          omega
        · cases h
      · cases h
    · cases h
  · cases h

theorem parseSecOff_bounds (l : List Char) (sec : Nat) (o : TzOff)
    (h : parseSecOff l = some (sec, some o)) : o.oh < 100 ∧ o.om < 100 := by
  unfold parseSecOff at h
  split at h
  · split at h
    · rename_i s o2 heq2 heq
      split at h
      · cases h
        exact parseOff_bounds _ o heq
      · cases h
    · cases h
  · rcases hpo : parseOff l with _ | o2
    · rw [hpo] at h
      exact absurd h (by simp)
    · rw [hpo] at h
      simp only [Option.map_some', Option.some.injEq, Prod.mk.injEq] at h
      obtain ⟨-, ho2⟩ := h
      rw [ho2] at hpo
      exact parseOff_bounds l o hpo

theorem parseIso_off_bounds (s : String) (dt : PyDateTime) (o : TzOff)
    (hp : parseIso s = some dt) (ho : dt.off = some o) :
    o.oh < 100 ∧ o.om < 100 := by
  unfold parseIso at hp
  split at hp
  · split at hp
    · rename_i sec off hsec
      split at hp
      · cases hp
        dsimp only at ho
        rw [ho] at hsec
        exact parseSecOff_bounds _ _ o hsec
      · cases hp
    · cases hp
  · cases hp

theorem addMinutes_off (dt : PyDateTime) (k : Nat) : (addMinutes dt k).off = dt.off := by
  simp only [addMinutes]

/-- The rendered ISO timestamp of an offset-aware value passes the suffix
regex, so the payload normalization leaves it untouched. -/
theorem hasTzSuffix_isoformat (dt : PyDateTime) (o : TzOff)
    (ho : dt.off = some o) (hh : o.oh < 100) (hm2 : o.om < 100) :
    hasTzSuffix (isoformat dt) = true := by
  unfold isoformat
  rw [ho]
  exact hasTzSuffix_renderOff _ o hh hm2

theorem calculate_end_time_eq (off s : String) (d : Nat) (dt : PyDateTime)
    (hs0 : s ≠ "") (hsx : hasTzSuffix s = false)
    (hparse : parseIso (replaceZ (s ++ off)) = some dt) :
    calculate_end_time off (some s) d = some (isoformat (addMinutes dt d)) := by
  have hens : ensure_timezone_offset off s = s ++ off := by
    unfold ensure_timezone_offset
    rw [if_neg]
    simp [hsx]
    exact hs0
  simp only [calculate_end_time]
  rw [hens, hparse]

theorem normStart_append (off : String) (a : Args) (s : String)
    (hs : a.startTime = some s) (hs0 : s ≠ "") (hsx : hasTzSuffix s = false) :
    normStart off a = { a with startTime := some (s ++ off) } := by
  have hcond : (s != "" && !hasTzSuffix s) = true := by
    simp [hsx]
    exact hs0
  unfold normStart
  rw [hs]
  dsimp only
  rw [if_pos hcond]

theorem normEnd_id_of_suffix (off : String) (a : Args) (v : String)
    (hv : a.endTime = some v) (hvx : hasTzSuffix v = true) :
    normEnd off a = a := by
  unfold normEnd
  rw [hv]
  dsimp only
  rw [if_neg (by simp [hvx])]

theorem schedEndpoint (x : Option String) :
    (if ("schedule_event" == "schedule_event") = true then "/events"
     else "/events/" ++ x.getD "None") = "/events" := rfl

theorem schedMethod :
    (if ("schedule_event" == "schedule_event") = true then "POST" else "PATCH") = "POST" := rfl

/-- Claim C5 as amended: a start instant lacking an offset suffix is
annotated with the *server-side* local offset (the caller's declared
timezone is never consulted): the issued create call carries
`start ++ serverOffset` as its start and the ISO rendering of the annotated
start plus the duration as its end, both bearing that same explicit offset
suffix. -/
theorem c5_amended (env : Env) (tenantId user_role : String) (args : Args)
    (s : String) (dt : PyDateTime) (o : TzOff) (d : Nat)
    (hs : args.startTime = some s) (hs0 : s ≠ "") (hsx : hasTzSuffix s = false)
    (hd : args.duration_minutes = some d)
    (hparse : parseIso (replaceZ (s ++ env.serverOffset)) = some dt)
    (ho : dt.off = some o) :
    ∃ p,
      (handle_calendar env tenantId "schedule_event" args user_role).2 =
        [{ method := "POST", path := "/events", payload := some p }] ∧
      p.startTime = some (s ++ env.serverOffset) ∧
      p.endTime = some (isoformat (addMinutes dt d)) ∧
      hasTzSuffix (isoformat (addMinutes dt d)) = true ∧
      (addMinutes dt d).off = dt.off := by
  obtain ⟨hh, hm2⟩ := parseIso_off_bounds _ dt o hparse ho
  have hoff2 : (addMinutes dt d).off = some o := by rw [addMinutes_off, ho]
  have hsuf : hasTzSuffix (isoformat (addMinutes dt d)) = true :=
    hasTzSuffix_isoformat _ o hoff2 hh hm2
  have hcall : handle_calendar env tenantId "schedule_event" args user_role =
      scheduleUpdate env tenantId "schedule_event" args := rfl
  rw [hcall]
  simp only [scheduleUpdate]
  rw [hs]
  rw [show truthyO (some s) = true from by simp [truthyO, hs0]]
  rw [if_pos rfl]
  rw [hd]
  rw [show (some d).getD 60 = d from rfl]
  rw [calculate_end_time_eq env.serverOffset s d dt hs0 hsx hparse]
  dsimp only
  rw [schedEndpoint, schedMethod]
  rw [pyRequest_snd]
  simp only [normalizeTimes]
  refine ⟨normEnd env.serverOffset (normStart env.serverOffset _), rfl, ?_, ?_, hsuf, by
    rw [addMinutes_off]⟩
  · rw [(normEnd_keeps env.serverOffset _).2.2]
    rw [normStart_append env.serverOffset _ s rfl hs0 hsx]
  · rw [normEnd_id_of_suffix env.serverOffset _ (isoformat (addMinutes dt d))
      (by rw [(normStart_keeps env.serverOffset _).2.2]) hsuf]
    rw [(normStart_keeps env.serverOffset _).2.2]

theorem c5_amended_witness :
    ∃ p,
      (handle_calendar baseEnv "t1" "schedule_event"
          { title := some "X", startTime := some "2025-06-01T14:00",
            duration_minutes := some 30 } "associate").2 =
        [{ method := "POST", path := "/events", payload := some p }] ∧
      p.startTime = some ("2025-06-01T14:00" ++ baseEnv.serverOffset) ∧
      p.endTime = some (isoformat (addMinutes ⟨2025, 6, 1, 14, 0, 0, some ⟨false, 3, 0⟩⟩ 30)) ∧
      hasTzSuffix (isoformat (addMinutes ⟨2025, 6, 1, 14, 0, 0, some ⟨false, 3, 0⟩⟩ 30)) = true ∧
      (addMinutes (⟨2025, 6, 1, 14, 0, 0, some ⟨false, 3, 0⟩⟩ : PyDateTime) 30).off =
        (⟨2025, 6, 1, 14, 0, 0, some ⟨false, 3, 0⟩⟩ : PyDateTime).off :=
  c5_amended baseEnv "t1" "associate"
    { title := some "X", startTime := some "2025-06-01T14:00", duration_minutes := some 30 }
    "2025-06-01T14:00" ⟨2025, 6, 1, 14, 0, 0, some ⟨false, 3, 0⟩⟩ ⟨false, 3, 0⟩ 30
    rfl (by decide) (by decide) rfl (by decide) rfl

/-- Claim C5 refuted at the spec's own scenario: the caller declares
timezone `+05:00`, the start `2025-06-01T14:00` has no offset, and the
request still resolves both time fields with the *server's* offset `+03:00`
— the caller's declared timezone is never consulted by the resolver. -/
theorem c5_counterexample :
    (handle_agent_query envSched "t1" "associate" "+05:00" "book it" []).backendCalls.drop 1 =
      [{ method := "POST", path := "/events",
         payload := some
           { title := some "X", summary := none,
             startTime := some "2025-06-01T14:00+03:00",
             endTime := some "2025-06-01T14:30:00+03:00",
             duration_minutes := some 30,
             sysContext := some ⟨"2025-06-01T10:00:00+03:00", "Sunday", "+03:00"⟩ } }] ∧
    (some "2025-06-01T14:00+03:00" : Option String) ≠ some "2025-06-01T14:00+05:00" ∧
    (some "2025-06-01T14:30:00+03:00" : Option String) ≠ some "2025-06-01T14:30:00+05:00" := by
  refine ⟨by decide, by decide, by decide⟩

end AgentApp
